import Mathlib

/-!
Verification of the Crazy Eights game engine.

The development shallowly embeds the game logic of the repository:
the card model and rule evaluator from src/gameLogic.ts and types.ts,
and the state-machine operations (initGame, drawCard, playCard,
selectSuit) from the application component.  Randomness (Math.random)
is modelled by an explicit supply of naturals, one per Fisher-Yates
step: at loop index i the source computes j = floor(random * (i + 1)),
a uniform value in [0, i]; here j = rand i % (i + 1).
-/

namespace CrazyEights

/-- Suit enumeration, in the declaration order of types.ts
(hearts, diamonds, clubs, spades - also the insertion order of the
counts object the AI folds over). -/
inductive Suit
  | hearts | diamonds | clubs | spades
  deriving DecidableEq

/-- Rank enumeration from types.ts. -/
inductive Rank
  | ace | two | three | four | five | six | seven | eight
  | nine | ten | jack | queen | king
  deriving DecidableEq

/-- String form of a suit, as in the TS enum values. -/
def suitStr : Suit → String
  | .hearts => "hearts"
  | .diamonds => "diamonds"
  | .clubs => "clubs"
  | .spades => "spades"

/-- String form of a rank, as in the TS enum values. -/
def rankStr : Rank → String
  | .ace => "A"
  | .two => "2"
  | .three => "3"
  | .four => "4"
  | .five => "5"
  | .six => "6"
  | .seven => "7"
  | .eight => "8"
  | .nine => "9"
  | .ten => "10"
  | .jack => "J"
  | .queen => "Q"
  | .king => "K"

/-- CardData from types.ts: an id string, a suit and a rank. -/
structure CardData where
  id : String
  suit : Suit
  rank : Rank
  deriving DecidableEq

/-- Card construction as in createDeck: id is the string rank-suit. -/
def mkCard (r : Rank) (s : Suit) : CardData :=
  { id := rankStr r ++ "-" ++ suitStr s, suit := s, rank := r }

instance : Inhabited CardData := ⟨mkCard .ace .hearts⟩

/-- GameStatus from types.ts. -/
inductive GameStatus
  | waiting | playing | choosing_suit | game_over
  deriving DecidableEq

/-- The two sides, the values of the currentTurn / winner fields. -/
inductive Side
  | player | ai
  deriving DecidableEq

/-- GameState from types.ts. -/
structure GameState where
  deck : List CardData
  discardPile : List CardData
  playerHand : List CardData
  aiHand : List CardData
  currentSuit : Option Suit
  currentTurn : Side
  status : GameStatus
  winner : Option Side
  lastAction : String
  deriving DecidableEq

/-- The other side, as in the ternary turn === player ? ai : player. -/
def otherSide : Side → Side
  | .player => .ai
  | .ai => .player

/-- The hand belonging to a side (the dynamic-key access
prev[turn === player ? playerHand : aiHand] of the source). -/
def handOf (s : GameState) : Side → List CardData
  | .player => s.playerHand
  | .ai => s.aiHand

/-- Swap of two positions of a list (the destructuring swap inside the
shuffle loop); out-of-range indices leave the list unchanged (cannot
occur in the loop). -/
def swapIdx (l : List α) (i j : Nat) : List α :=
  match l[i]?, l[j]? with
  | some x, some y => (l.set i y).set j x
  | _, _ => l

/-- Fisher-Yates loop of shuffle, from index i down to 1: at index i
the random index is rand i % (i + 1), a value in [0, i] exactly as
floor(Math.random() * (i + 1)). -/
def fyAux (rand : Nat → Nat) : Nat → List α → List α
  | 0, l => l
  | i + 1, l => fyAux rand i (swapIdx l (i + 1) (rand (i + 1) % (i + 2)))

/-- Shuffle from gameLogic.ts: copies the array and runs the
Fisher-Yates loop from length - 1 down to 1. -/
def shuffle (rand : Nat → Nat) (l : List α) : List α :=
  fyAux rand (l.length - 1) l

/-- Suit loop order of createDeck. -/
def allSuits : List Suit := [.hearts, .diamonds, .clubs, .spades]

/-- Rank loop order of createDeck. -/
def allRanks : List Rank :=
  [.ace, .two, .three, .four, .five, .six, .seven, .eight,
   .nine, .ten, .jack, .queen, .king]

/-- The 52-card deck in construction order (for suit of suits, for
rank of ranks, push card), before the shuffle. -/
def baseDeck : List CardData :=
  allSuits.flatMap fun s => allRanks.map fun r => mkCard r s

/-- createDeck from gameLogic.ts: the 52 cards, shuffled. -/
def createDeck (rand : Nat → Nat) : List CardData :=
  shuffle rand baseDeck

/-- isValidMove from gameLogic.ts. -/
def isValidMove (card topCard : CardData) (currentSuit : Option Suit) : Bool :=
  if card.rank = Rank.eight then true
  else
    let targetSuit := currentSuit.getD topCard.suit
    decide (card.suit = targetSuit) || decide (card.rank = topCard.rank)

/-- The initial component state (the useState initialiser). -/
def initialState : GameState :=
  { deck := [], discardPile := [], playerHand := [], aiHand := [],
    currentSuit := none, currentTurn := .player, status := .waiting,
    winner := none, lastAction := "欢迎来到疯狂 8 点！" }

/-- initGame: build a shuffled deck, splice 8 cards to the player and
8 to the AI, pop one card off the end as the first discard.  The none
branch of the match is unreachable: createDeck always yields 52 cards,
so 36 remain when the source asserts pop() non-null. -/
def initGame (rand : Nat → Nat) : GameState :=
  let fullDeck := createDeck rand
  let pHand := fullDeck.take 8
  let aHand := (fullDeck.drop 8).take 8
  let rest := fullDeck.drop 16
  match rest.getLast? with
  | some firstDiscard =>
      { deck := rest.dropLast,
        discardPile := [firstDiscard],
        playerHand := pHand,
        aiHand := aHand,
        currentSuit := none,
        currentTurn := .player,
        status := .playing,
        winner := none,
        lastAction := "游戏开始！你的回合。" }
  | none => initialState

/-- Status-line message after a draw. -/
def drawMsg : Side → String
  | .player => "你 摸了一张牌。"
  | .ai => "AI 摸了一张牌。"

/-- drawCard: if the deck is empty and the discard pile holds at most
one card, only the message and the turn change; if the deck is empty
otherwise, the discard pile minus its top card is shuffled into a new
deck, its last card is popped into the hand and only the top card
stays discarded; else the last deck card is popped into the hand.  The
fallthrough match arms are unreachable (the shuffled pile has at least
one card when the discard pile has more than one; the deck is checked
non-empty), mirroring the source's non-null assertions on pop(). -/
def drawCard (rand : Nat → Nat) (turn : Side) (prev : GameState) : GameState :=
  if prev.deck.length = 0 then
    if prev.discardPile.length ≤ 1 then
      { prev with
        lastAction := "摸牌堆已空，无法摸牌！",
        currentTurn := otherSide turn }
    else
      match prev.discardPile.getLast?,
            (shuffle rand prev.discardPile.dropLast).getLast? with
      | some topCard, some card =>
          { prev with
            deck := (shuffle rand prev.discardPile.dropLast).dropLast,
            discardPile := [topCard],
            playerHand :=
              if turn = .player then prev.playerHand ++ [card]
              else prev.playerHand,
            aiHand :=
              if turn = .ai then prev.aiHand ++ [card] else prev.aiHand,
            lastAction := drawMsg turn,
            currentTurn := otherSide turn }
      | _, _ => prev
  else
    match prev.deck.getLast? with
    | some card =>
        { prev with
          deck := prev.deck.dropLast,
          playerHand :=
            if turn = .player then prev.playerHand ++ [card]
            else prev.playerHand,
          aiHand :=
            if turn = .ai then prev.aiHand ++ [card] else prev.aiHand,
          lastAction := drawMsg turn,
          currentTurn := otherSide turn }
    | none => prev

/-- Count of cards of a suit in a hand (the counts object increments). -/
def countSuit (hand : List CardData) (s : Suit) : Nat :=
  (hand.filter fun c => c.suit = s).length

/-- The AI suit choice after playing an eight: reduce over the keys of
the counts object, in insertion order hearts, diamonds, clubs, spades,
keeping the incumbent only on a strictly greater count. -/
def chooseSuitAI (newHand : List CardData) : Suit :=
  [Suit.diamonds, Suit.clubs, Suit.spades].foldl
    (fun a b => if countSuit newHand a > countSuit newHand b then a else b)
    Suit.hearts

/-- Status-line message after a play. -/
def playMsg (turn : Side) (card : CardData) (chosen : Option Suit) : String :=
  (if turn = Side.player then "你" else "AI") ++ " 打出了 "
    ++ rankStr card.rank ++ suitStr card.suit ++ "。"
    ++ (match chosen with
        | some s => "AI 指定花色为 " ++ suitStr s ++ "。"
        | none => "")

/-- playCard: remove every hand card sharing the played card's id,
append the card to the discard pile, and update suit, turn, status and
winner exactly as the source's single spread-update does.  No
validation of legality, ownership, turn or status is performed. -/
def playCard (card : CardData) (turn : Side) (prev : GameState) : GameState :=
  let newHand := (handOf prev turn).filter fun c => c.id ≠ card.id
  let isEight := card.rank = Rank.eight
  let chosenSuit : Option Suit :=
    if isEight ∧ turn = .ai then some (chooseSuitAI newHand) else none
  let nextStatus : GameStatus :=
    if isEight ∧ turn = .player then .choosing_suit else .playing
  let winner : Option Side := if newHand.length = 0 then some turn else none
  { prev with
    discardPile := prev.discardPile ++ [card],
    playerHand := if turn = .player then newHand else prev.playerHand,
    aiHand := if turn = .ai then newHand else prev.aiHand,
    currentSuit := chosenSuit,
    currentTurn :=
      if isEight ∧ turn = .player then .player else otherSide turn,
    status := if winner.isSome then .game_over else nextStatus,
    winner := winner,
    lastAction := playMsg turn card chosenSuit }

/-- selectSuit: unconditionally set the declared suit, return to the
playing status and hand the turn to the AI.  The source performs no
status check; the UI opens the suit-selection modal only while the
status is choosing_suit. -/
def selectSuit (suit : Suit) (prev : GameState) : GameState :=
  { prev with
    currentSuit := some suit,
    status := .playing,
    currentTurn := .ai,
    lastAction := "你指定花色为 " ++ suitStr suit ++ "。" }

/-- Total number of cards across the four locations. -/
def totalCards (s : GameState) : Nat :=
  s.deck.length + s.discardPile.length + s.playerHand.length
    + s.aiHand.length

/-- All cards of a state, draw pile then discard pile then the hands. -/
def allCards (s : GameState) : List CardData :=
  s.deck ++ s.discardPile ++ s.playerHand ++ s.aiHand

/-! Permutation facts about the Fisher-Yates shuffle. -/

/-- Writing b over position m while pulling the old entry y of that
position to the front permutes prepending b directly. -/
theorem cons_set_perm (b : α) :
    ∀ (t : List α) (m : Nat) (y : α), t[m]? = some y →
      List.Perm (y :: t.set m b) (b :: t)
  | [], m, _, h => by simp at h
  | c :: t, 0, y, h => by
      simp only [List.getElem?_cons_zero, Option.some.injEq] at h
      subst h
      simpa using List.Perm.swap b c t
  | c :: t, m + 1, y, h => by
      simp only [List.getElem?_cons_succ] at h
      simpa using
        (List.Perm.swap c y (t.set m b)).trans
          (((cons_set_perm b t m y h).cons c).trans (List.Perm.swap b c t))

/-- A double set that exchanges the entries at two positions is a
permutation of the original list. -/
theorem set_set_swap_perm :
    ∀ (l : List α) (i j : Nat) (x y : α),
      l[i]? = some x → l[j]? = some y →
      List.Perm ((l.set i y).set j x) l
  | [], i, _, _, _, hi, _ => by simp at hi
  | a :: t, 0, 0, x, y, hi, hj => by
      simp only [List.getElem?_cons_zero, Option.some.injEq] at hi hj
      subst hi
      simp
  | a :: t, 0, j + 1, x, y, hi, hj => by
      simp only [List.getElem?_cons_zero, Option.some.injEq] at hi
      simp only [List.getElem?_cons_succ] at hj
      subst hi
      simpa using cons_set_perm a t j y hj
  | a :: t, i + 1, 0, x, y, hi, hj => by
      simp only [List.getElem?_cons_zero, Option.some.injEq] at hj
      simp only [List.getElem?_cons_succ] at hi
      subst hj
      simpa using cons_set_perm a t i x hi
  | a :: t, i + 1, j + 1, x, y, hi, hj => by
      simp only [List.getElem?_cons_succ] at hi hj
      simpa using (set_set_swap_perm t i j x y hi hj).cons a

/-- A swap step of the shuffle loop permutes the list. -/
theorem swapIdx_perm (l : List α) (i j : Nat) :
    List.Perm (swapIdx l i j) l := by
  unfold swapIdx
  split
  next x y hi hj => exact set_set_swap_perm l i j x y hi hj
  next => exact List.Perm.refl l

/-- The whole shuffle loop permutes the list. -/
theorem fyAux_perm (rand : Nat → Nat) :
    ∀ (n : Nat) (l : List α), List.Perm (fyAux rand n l) l
  | 0, l => List.Perm.refl l
  | n + 1, l =>
      (fyAux_perm rand n _).trans
        (swapIdx_perm l (n + 1) (rand (n + 1) % (n + 2)))

/-- shuffle returns a permutation of its input. -/
theorem shuffle_perm (rand : Nat → Nat) (l : List α) :
    List.Perm (shuffle rand l) l :=
  fyAux_perm rand (l.length - 1) l

/-- shuffle preserves the length. -/
theorem shuffle_length (rand : Nat → Nat) (l : List α) :
    (shuffle rand l).length = l.length :=
  (shuffle_perm rand l).length_eq

/-! Characterisations of the engine operations branch by branch. -/

/-- The base deck has 52 cards. -/
theorem baseDeck_length : baseDeck.length = 52 := by decide

/-- All 52 ids of the base deck are distinct. -/
theorem baseDeck_ids_nodup : (baseDeck.map fun c => c.id).Nodup := by decide

/-- createDeck always yields 52 cards. -/
theorem createDeck_length (rand : Nat → Nat) :
    (createDeck rand).length = 52 := by
  rw [createDeck, shuffle_length, baseDeck_length]

/-- Unfolding of initGame: the none branch of the match never fires
because the shuffled deck always has 52 cards. -/
theorem initGame_eq (rand : Nat → Nat) :
    ∃ fc, ((createDeck rand).drop 16).getLast? = some fc ∧
      initGame rand =
        { deck := ((createDeck rand).drop 16).dropLast,
          discardPile := [fc],
          playerHand := (createDeck rand).take 8,
          aiHand := ((createDeck rand).drop 8).take 8,
          currentSuit := none,
          currentTurn := .player,
          status := .playing,
          winner := none,
          lastAction := "游戏开始！你的回合。" } := by
  have hne : (createDeck rand).drop 16 ≠ [] := by
    intro h
    have hl := congrArg List.length h
    simp [createDeck_length] at hl
  obtain ⟨fc, hfc⟩ :=
    Option.ne_none_iff_exists'.mp (mt List.getLast?_eq_none_iff.mp hne)
  refine ⟨fc, hfc, ?_⟩
  unfold initGame
  generalize hD : createDeck rand = D at hfc ⊢
  simp only []
  rw [hfc]

/-- Unfolding of the exhausted-draw branch: deck empty and at most one
discarded card - only the message and the turn change. -/
theorem drawCard_exhausted (rand : Nat → Nat) (turn : Side) (s : GameState)
    (hdeck : s.deck.length = 0) (hle : s.discardPile.length ≤ 1) :
    drawCard rand turn s =
      { s with
        lastAction := "摸牌堆已空，无法摸牌！",
        currentTurn := otherSide turn } := by
  unfold drawCard
  rw [if_pos hdeck, if_pos hle]

/-- Unfolding of the recycling branch: deck empty, more than one
discarded card.  The discard pile minus its top card is shuffled, its
last card is drawn, only the top card stays discarded. -/
theorem drawCard_recycle (rand : Nat → Nat) (turn : Side) (s : GameState)
    (hdeck : s.deck.length = 0) (hgt : 1 < s.discardPile.length) :
    ∃ top card,
      s.discardPile.getLast? = some top ∧
      (shuffle rand s.discardPile.dropLast).getLast? = some card ∧
      drawCard rand turn s =
        { s with
          deck := (shuffle rand s.discardPile.dropLast).dropLast,
          discardPile := [top],
          playerHand :=
            if turn = .player then s.playerHand ++ [card]
            else s.playerHand,
          aiHand := if turn = .ai then s.aiHand ++ [card] else s.aiHand,
          lastAction := drawMsg turn,
          currentTurn := otherSide turn } := by
  have h1 : s.discardPile ≠ [] := by
    intro h
    rw [h] at hgt
    simp at hgt
  obtain ⟨top, htop⟩ :=
    Option.ne_none_iff_exists'.mp (mt List.getLast?_eq_none_iff.mp h1)
  have h2 : shuffle rand s.discardPile.dropLast ≠ [] := by
    intro h
    have hl := congrArg List.length h
    rw [shuffle_length] at hl
    simp at hl
    omega
  obtain ⟨card, hcard⟩ :=
    Option.ne_none_iff_exists'.mp (mt List.getLast?_eq_none_iff.mp h2)
  refine ⟨top, card, htop, hcard, ?_⟩
  unfold drawCard
  rw [if_pos hdeck, if_neg (by omega), htop, hcard]

/-- Unfolding of the ordinary draw: the last deck card moves into the
drawing side's hand and the turn passes. -/
theorem drawCard_nonempty (rand : Nat → Nat) (turn : Side) (s : GameState)
    (hdeck : s.deck.length ≠ 0) :
    ∃ card,
      s.deck.getLast? = some card ∧
      drawCard rand turn s =
        { s with
          deck := s.deck.dropLast,
          playerHand :=
            if turn = .player then s.playerHand ++ [card]
            else s.playerHand,
          aiHand := if turn = .ai then s.aiHand ++ [card] else s.aiHand,
          lastAction := drawMsg turn,
          currentTurn := otherSide turn } := by
  have h1 : s.deck ≠ [] := by
    intro h
    rw [h] at hdeck
    simp at hdeck
  obtain ⟨card, hcard⟩ :=
    Option.ne_none_iff_exists'.mp (mt List.getLast?_eq_none_iff.mp h1)
  refine ⟨card, hcard, ?_⟩
  unfold drawCard
  rw [if_neg hdeck, hcard]

/-! The card-conservation invariant. -/

/-- In a hand whose ids are all distinct, filtering away the played
card's id removes exactly that card. -/
theorem hand_filter_perm (c : CardData) :
    ∀ l : List CardData, (l.map fun x => x.id).Nodup → c ∈ l →
      List.Perm l (c :: l.filter fun x => x.id ≠ c.id)
  | [], _, hmem => by simp at hmem
  | a :: t, hnod, hmem => by
      rw [List.map_cons, List.nodup_cons] at hnod
      rcases List.mem_cons.mp hmem with rfl | hmem
      · have ht : (t.filter fun x => x.id ≠ c.id) = t :=
          List.filter_eq_self.mpr fun x hx => by
            simp only [ne_eq, decide_eq_true_eq]
            intro hxc
            exact hnod.1 (hxc ▸ List.mem_map_of_mem (fun y => y.id) hx)
        have h1 : ((c :: t).filter fun x => x.id ≠ c.id) =
            t.filter fun x => x.id ≠ c.id := by
          rw [List.filter_cons]
          simp
        rw [h1, ht]
      · have hac : a.id ≠ c.id := fun h =>
          hnod.1 (h ▸ List.mem_map_of_mem (fun y => y.id) hmem)
        have ih := hand_filter_perm c t hnod.2 hmem
        have hfa : ((a :: t).filter fun x => x.id ≠ c.id) =
            a :: t.filter fun x => x.id ≠ c.id := by
          rw [List.filter_cons]
          simp [hac]
        rw [hfa]
        exact (ih.cons a).trans (List.Perm.swap c a _)

/-- selectSuit moves no card. -/
theorem allCards_selectSuit (suit : Suit) (s : GameState) :
    allCards (selectSuit suit s) = allCards s := rfl

/-- drawCard permutes the cards of the state: every branch conserves
the multiset of all cards. -/
theorem allCards_drawCard_perm (rand : Nat → Nat) (turn : Side)
    (s : GameState) :
    List.Perm (allCards (drawCard rand turn s)) (allCards s) := by
  by_cases hdeck : s.deck.length = 0
  · have hdnil : s.deck = [] := List.length_eq_zero.mp hdeck
    by_cases hle : s.discardPile.length ≤ 1
    · rw [drawCard_exhausted rand turn s hdeck hle]
      simp [allCards]
    · obtain ⟨top, card, htop, hcard, heq⟩ :=
        drawCard_recycle rand turn s hdeck (by omega)
      rw [heq]
      have e1 : ((s.discardPile.dropLast : Multiset CardData) + ↑[top]) =
          (s.discardPile : Multiset CardData) := by
        rw [Multiset.coe_add, List.dropLast_append_getLast? top htop]
      have e2 : (((shuffle rand s.discardPile.dropLast).dropLast :
            Multiset CardData) + ↑[card]) =
          (s.discardPile.dropLast : Multiset CardData) := by
        rw [Multiset.coe_add, List.dropLast_append_getLast? card hcard]
        exact Multiset.coe_eq_coe.mpr (shuffle_perm rand _)
      rw [← Multiset.coe_eq_coe]
      cases turn <;>
        · simp only [allCards, hdnil, ← Multiset.coe_add, reduceIte]
          rw [← e1, ← e2]
          simp only [Multiset.coe_nil]
          abel
  · obtain ⟨card, hcard, heq⟩ := drawCard_nonempty rand turn s hdeck
    rw [heq]
    have e1 : ((s.deck.dropLast : Multiset CardData) + ↑[card]) =
        (s.deck : Multiset CardData) := by
      rw [Multiset.coe_add, List.dropLast_append_getLast? card hcard]
    rw [← Multiset.coe_eq_coe]
    cases turn <;>
      · simp only [allCards, ← Multiset.coe_add, reduceIte]
        rw [← e1]
        abel

/-- playCard of a card of the mover's hand permutes the cards of the
state, provided the ids of the state are distinct. -/
theorem allCards_playCard_perm (card : CardData) (turn : Side)
    (s : GameState)
    (hnod : ((allCards s).map fun c => c.id).Nodup)
    (hmem : card ∈ handOf s turn) :
    List.Perm (allCards (playCard card turn s)) (allCards s) := by
  have hsubP : List.Sublist s.playerHand (allCards s) := by
    unfold allCards
    exact (List.sublist_append_right (s.deck ++ s.discardPile)
      s.playerHand).trans (List.sublist_append_left _ s.aiHand)
  have hsubA : List.Sublist s.aiHand (allCards s) := by
    unfold allCards
    exact List.sublist_append_right _ s.aiHand
  rw [← Multiset.coe_eq_coe]
  cases turn
  case player =>
    have hh : (s.playerHand.map fun x => x.id).Nodup :=
      List.Nodup.sublist (hsubP.map fun c => c.id) hnod
    have hp := hand_filter_perm card s.playerHand hh hmem
    have e1 : (s.playerHand : Multiset CardData) =
        ↑[card] + ↑(s.playerHand.filter fun x => x.id ≠ card.id) := by
      rw [Multiset.coe_add]
      exact Multiset.coe_eq_coe.mpr hp
    simp only [playCard, allCards, handOf, ← Multiset.coe_add, reduceIte]
    rw [e1]
    abel
  case ai =>
    have hh : (s.aiHand.map fun x => x.id).Nodup :=
      List.Nodup.sublist (hsubA.map fun c => c.id) hnod
    have hp := hand_filter_perm card s.aiHand hh hmem
    have e1 : (s.aiHand : Multiset CardData) =
        ↑[card] + ↑(s.aiHand.filter fun x => x.id ≠ card.id) := by
      rw [Multiset.coe_add]
      exact Multiset.coe_eq_coe.mpr hp
    simp only [playCard, allCards, handOf, ← Multiset.coe_add, reduceIte]
    rw [e1]
    abel

/-- After initGame the cards of the state are a permutation of the
52-card base deck. -/
theorem initGame_allCards_perm (rand : Nat → Nat) :
    List.Perm (allCards (initGame rand)) baseDeck := by
  obtain ⟨fc, hfc, heq⟩ := initGame_eq rand
  rw [heq]
  have e1 : (((createDeck rand).drop 16).dropLast :
        Multiset CardData) + ↑[fc] =
      ((createDeck rand).drop 16 : Multiset CardData) := by
    rw [Multiset.coe_add, List.dropLast_append_getLast? fc hfc]
  have e2 : ((createDeck rand).take 8 : Multiset CardData) +
        ↑((createDeck rand).drop 8) = (createDeck rand : Multiset CardData) := by
    rw [Multiset.coe_add, List.take_append_drop]
  have e3 : (((createDeck rand).drop 8).take 8 : Multiset CardData) +
        ↑((createDeck rand).drop 16) =
      ((createDeck rand).drop 8 : Multiset CardData) := by
    rw [Multiset.coe_add]
    have : ((createDeck rand).drop 8).drop 8 = (createDeck rand).drop 16 := by
      rw [List.drop_drop]
    rw [← this, List.take_append_drop]
  have e4 : (createDeck rand : Multiset CardData) = ↑baseDeck :=
    Multiset.coe_eq_coe.mpr (shuffle_perm rand baseDeck)
  rw [← Multiset.coe_eq_coe]
  simp only [allCards, ← Multiset.coe_add]
  rw [← e4, ← e2, ← e3, ← e1]
  abel

/-- Reachability: the states produced by initGame and closed under
drawing, playing a card of the mover's hand, and declaring a suit. -/
inductive Reachable : GameState → Prop
  | start (rand : Nat → Nat) : Reachable (initGame rand)
  | draw (rand : Nat → Nat) (turn : Side) {s : GameState} :
      Reachable s → Reachable (drawCard rand turn s)
  | play (card : CardData) (turn : Side) {s : GameState} :
      Reachable s → card ∈ handOf s turn →
      Reachable (playCard card turn s)
  | declare (suit : Suit) {s : GameState} :
      Reachable s → Reachable (selectSuit suit s)

/-- Ids of a state permuting the base deck are distinct. -/
theorem perm_ids_nodup {s : GameState}
    (h : List.Perm (allCards s) baseDeck) :
    ((allCards s).map fun c => c.id).Nodup :=
  (List.Perm.nodup_iff (h.map fun c => c.id)).mpr baseDeck_ids_nodup

/-- Every reachable state carries a permutation of the base deck. -/
theorem reachable_allCards_perm {s : GameState} (h : Reachable s) :
    List.Perm (allCards s) baseDeck := by
  induction h with
  | start rand => exact initGame_allCards_perm rand
  | draw rand turn _ ih => exact (allCards_drawCard_perm rand turn _).trans ih
  | play card turn _ hmem ih =>
      exact (allCards_playCard_perm card turn _ (perm_ids_nodup ih) hmem).trans ih
  | declare suit _ ih => rw [allCards_selectSuit]; exact ih

/-! Claim theorems. -/

/-- C1: in every reachable state after start the four locations
together hold exactly 52 cards and no card id occurs twice across the
draw pile, discard pile and the two hands; reachability is closed
under draw, play of a card present in the mover's hand, and suit
declaration, so every operation preserves the partition. -/
theorem C1_partition_invariant {s : GameState} (h : Reachable s) :
    totalCards s = 52 ∧ ((allCards s).map fun c => c.id).Nodup := by
  have hp := reachable_allCards_perm h
  constructor
  · have hl := hp.length_eq
    rw [baseDeck_length] at hl
    simp only [allCards, List.length_append] at hl
    simp only [totalCards]
    omega
  · exact perm_ids_nodup hp

/-- Witness for C1: the invariant holds at a concrete freshly started
game. -/
theorem C1_witness :
    totalCards (initGame fun _ => 0) = 52 ∧
      ((allCards (initGame fun _ => 0)).map fun c => c.id).Nodup :=
  C1_partition_invariant (Reachable.start fun _ => 0)

/-- C2: isValidMove accepts every eight, and accepts a non-eight card
exactly when its suit equals the declared suit if one is present and
otherwise the top card's suit, or its rank equals the top card's
rank. -/
theorem C2_isValidMove_spec (card topCard : CardData)
    (currentSuit : Option Suit) :
    (card.rank = Rank.eight → isValidMove card topCard currentSuit = true) ∧
    (card.rank ≠ Rank.eight →
      (isValidMove card topCard currentSuit = true ↔
        (card.suit = currentSuit.getD topCard.suit ∨
          card.rank = topCard.rank))) := by
  unfold isValidMove
  constructor
  · intro h
    simp [h]
  · intro h
    simp [h]

/-- Witness for C2: an eight on any top card is legal; a non-eight is
judged by suit and rank match. -/
theorem C2_witness :
    isValidMove (mkCard .eight .clubs) (mkCard .king .spades)
        (some .hearts) = true ∧
      (isValidMove (mkCard .three .hearts) (mkCard .king .spades) none = true ↔
        ((mkCard .three .hearts).suit =
            (none : Option Suit).getD (mkCard .king .spades).suit ∨
          (mkCard .three .hearts).rank = (mkCard .king .spades).rank)) :=
  ⟨(C2_isValidMove_spec (mkCard .eight .clubs) (mkCard .king .spades)
      (some .hearts)).1 rfl,
    (C2_isValidMove_spec (mkCard .three .hearts) (mkCard .king .spades)
      none).2 (by decide)⟩

/-- C6: with an empty draw pile and at most one discarded card,
drawCard moves no card: the draw pile, discard pile, both hands,
declared suit, status and winner are unchanged and only the turn
passes to the other side, along with the last-action message. -/
theorem C6_draw_exhausted_noop (rand : Nat → Nat) (turn : Side)
    (s : GameState) (hdeck : s.deck = [])
    (hle : s.discardPile.length ≤ 1) :
    drawCard rand turn s =
      { s with
        lastAction := "摸牌堆已空，无法摸牌！",
        currentTurn := otherSide turn } :=
  drawCard_exhausted rand turn s (by simp [hdeck]) hle

/-- A concrete state with an empty deck and a single discarded card. -/
def stateExhausted : GameState :=
  { deck := [], discardPile := [mkCard .king .spades],
    playerHand := [mkCard .ace .hearts], aiHand := [mkCard .two .clubs],
    currentSuit := none, currentTurn := .player, status := .playing,
    winner := none, lastAction := "x" }

/-- Witness for C6 at a concrete exhausted state. -/
theorem C6_witness :
    drawCard (fun _ => 0) Side.player stateExhausted =
      { stateExhausted with
        lastAction := "摸牌堆已空，无法摸牌！",
        currentTurn := otherSide Side.player } :=
  C6_draw_exhausted_noop (fun _ => 0) Side.player stateExhausted rfl
    (by decide)

/-- C8: immediately after start each hand has 8 cards, the discard
pile has exactly one card, the draw pile has the remaining 35 of the
52 cards, the turn is the player's, the status is in progress, no suit
is declared, there is no winner, and the cards of the state are the 52
distinct-identity cards, one per rank-suit pair. -/
theorem C8_initGame_spec (rand : Nat → Nat) :
    (initGame rand).playerHand.length = 8 ∧
    (initGame rand).aiHand.length = 8 ∧
    (initGame rand).discardPile.length = 1 ∧
    (initGame rand).deck.length = 35 ∧
    (initGame rand).currentTurn = Side.player ∧
    (initGame rand).status = GameStatus.playing ∧
    (initGame rand).currentSuit = none ∧
    (initGame rand).winner = none ∧
    List.Perm (allCards (initGame rand)) baseDeck ∧
    ((allCards (initGame rand)).map fun c => c.id).Nodup := by
  obtain ⟨fc, hfc, heq⟩ := initGame_eq rand
  have hlen := createDeck_length rand
  refine ⟨?_, ?_, ?_, ?_, ?_, ?_, ?_, ?_, initGame_allCards_perm rand,
    perm_ids_nodup (initGame_allCards_perm rand)⟩ <;>
    rw [heq] <;> simp [hlen]

/-- C9: the AI suit choice is a deterministic function of the suit
counts of the remaining hand - equal counts give the same choice - and
the chosen suit always attains the highest count; ties are broken by
the fold over the fixed enumeration, not randomly. -/
theorem C9_chooseSuit_deterministic_max :
    (∀ h1 h2 : List CardData,
        (∀ s, countSuit h1 s = countSuit h2 s) →
        chooseSuitAI h1 = chooseSuitAI h2) ∧
    (∀ (h : List CardData) (s : Suit),
        countSuit h s ≤ countSuit h (chooseSuitAI h)) := by
  constructor
  · intro h1 h2 hc
    simp only [chooseSuitAI, List.foldl_cons, List.foldl_nil, hc]
  · intro h s
    simp only [chooseSuitAI, List.foldl_cons, List.foldl_nil]
    split_ifs <;> cases s <;> omega

/-- Witness for C9 at two concrete one-card hands of equal counts. -/
theorem C9_witness :
    chooseSuitAI [mkCard .three .clubs] = chooseSuitAI [mkCard .four .clubs] ∧
    countSuit [mkCard .three .clubs] Suit.hearts ≤
      countSuit [mkCard .three .clubs]
        (chooseSuitAI [mkCard .three .clubs]) :=
  ⟨C9_chooseSuit_deterministic_max.1 [mkCard .three .clubs]
      [mkCard .four .clubs] (fun s => by cases s <;> rfl),
    C9_chooseSuit_deterministic_max.2 [mkCard .three .clubs] Suit.hearts⟩

/-- Position of a suit in the fixed enumeration order hearts,
diamonds, clubs, spades of types.ts, the insertion order of the keys
the AI folds over. -/
def suitIdx : Suit → Nat
  | .hearts => 0
  | .diamonds => 1
  | .clubs => 2
  | .spades => 3

/-- C10: the fold keeps the incumbent only on a strictly greater
count, so ties go to the suit later in the enumeration: every suit
tying the chosen count sits at or before the chosen suit, a hand with
all four counts equal yields spades, and the empty hand yields
spades. -/
theorem C10_tiebreak_later :
    (∀ (h : List CardData) (s : Suit),
        countSuit h s = countSuit h (chooseSuitAI h) →
        suitIdx s ≤ suitIdx (chooseSuitAI h)) ∧
    (∀ h : List CardData,
        countSuit h .hearts = countSuit h .diamonds →
        countSuit h .diamonds = countSuit h .clubs →
        countSuit h .clubs = countSuit h .spades →
        chooseSuitAI h = .spades) ∧
    chooseSuitAI [] = .spades := by
  refine ⟨?_, ?_, by decide⟩
  · intro h s hs
    simp only [chooseSuitAI, List.foldl_cons, List.foldl_nil] at hs ⊢
    split_ifs at hs ⊢ <;> cases s <;> simp_all [suitIdx]
  · intro h h1 h2 h3
    simp only [chooseSuitAI, List.foldl_cons, List.foldl_nil]
    split_ifs <;> first | rfl | (exfalso; omega)

/-- Witness for C10: a two-eight hand ties clubs against every other
suit count 0 situation, and the all-equal empty hand gives spades. -/
theorem C10_witness :
    suitIdx Suit.hearts ≤ suitIdx (chooseSuitAI [mkCard .three .clubs,
      mkCard .four .hearts]) ∧
    chooseSuitAI ([] : List CardData) = Suit.spades :=
  ⟨C10_tiebreak_later.1 [mkCard .three .clubs, mkCard .four .hearts]
      Suit.hearts (by decide),
    C10_tiebreak_later.2.2⟩

/-- C5: drawing on an empty draw pile with more than one discarded
card shuffles exactly the discard pile minus its top card (the top
card is not part of the shuffled cards), pops one card of the shuffled
pile into the drawing side's hand, leaves the unchanged top card as
the only discarded card, passes the turn, and conserves the total card
count. -/
theorem C5_draw_recycle_spec (rand : Nat → Nat) (turn : Side)
    (s : GameState) (hdeck : s.deck = [])
    (hgt : 1 < s.discardPile.length) :
    ∃ top card,
      s.discardPile.getLast? = some top ∧
      (shuffle rand s.discardPile.dropLast).getLast? = some card ∧
      (drawCard rand turn s).discardPile = [top] ∧
      (drawCard rand turn s).deck ++ [card] =
        shuffle rand s.discardPile.dropLast ∧
      List.Perm (shuffle rand s.discardPile.dropLast)
        s.discardPile.dropLast ∧
      handOf (drawCard rand turn s) turn = handOf s turn ++ [card] ∧
      handOf (drawCard rand turn s) (otherSide turn) =
        handOf s (otherSide turn) ∧
      (drawCard rand turn s).currentTurn = otherSide turn ∧
      totalCards (drawCard rand turn s) = totalCards s := by
  obtain ⟨top, card, htop, hcard, heq⟩ :=
    drawCard_recycle rand turn s (by simp [hdeck]) hgt
  have hsh : (shuffle rand s.discardPile.dropLast).length =
      s.discardPile.length - 1 := by
    rw [shuffle_length]
    simp
  refine ⟨top, card, htop, hcard, ?_, ?_, shuffle_perm rand _, ?_, ?_, ?_, ?_⟩
  · rw [heq]
  · rw [heq]
    exact List.dropLast_append_getLast? card hcard
  · rw [heq]
    cases turn <;> simp [handOf]
  · rw [heq]
    cases turn <;> simp [handOf, otherSide]
  · rw [heq]
  · rw [heq]
    simp only [totalCards, hdeck]
    cases turn <;> simp <;> omega

/-- A concrete state with an empty deck and three discarded cards. -/
def stateRecycle : GameState :=
  { deck := [],
    discardPile := [mkCard .two .hearts, mkCard .three .diamonds,
      mkCard .king .spades],
    playerHand := [mkCard .ace .hearts], aiHand := [mkCard .five .clubs],
    currentSuit := none, currentTurn := .player, status := .playing,
    winner := none, lastAction := "x" }

/-- Witness for C5 at the concrete recycling state. -/
theorem C5_witness :
    ∃ top card,
      stateRecycle.discardPile.getLast? = some top ∧
      (shuffle (fun _ => 0)
        stateRecycle.discardPile.dropLast).getLast? = some card ∧
      (drawCard (fun _ => 0) Side.player stateRecycle).discardPile = [top] ∧
      (drawCard (fun _ => 0) Side.player stateRecycle).deck ++ [card] =
        shuffle (fun _ => 0) stateRecycle.discardPile.dropLast ∧
      List.Perm (shuffle (fun _ => 0) stateRecycle.discardPile.dropLast)
        stateRecycle.discardPile.dropLast ∧
      handOf (drawCard (fun _ => 0) Side.player stateRecycle) Side.player =
        handOf stateRecycle Side.player ++ [card] ∧
      handOf (drawCard (fun _ => 0) Side.player stateRecycle)
          (otherSide Side.player) =
        handOf stateRecycle (otherSide Side.player) ∧
      (drawCard (fun _ => 0) Side.player stateRecycle).currentTurn =
        otherSide Side.player ∧
      totalCards (drawCard (fun _ => 0) Side.player stateRecycle) =
        totalCards stateRecycle :=
  C5_draw_recycle_spec (fun _ => 0) Side.player stateRecycle rfl (by decide)

/-- A concrete in-progress state on the player's turn; the queen of
diamonds is neither in the player's hand nor legal on the top card. -/
def stateNoCheck : GameState :=
  { deck := [mkCard .two .hearts], discardPile := [mkCard .king .spades],
    playerHand := [mkCard .ace .hearts], aiHand := [mkCard .five .clubs],
    currentSuit := none, currentTurn := .player, status := .playing,
    winner := none, lastAction := "x" }

/-- C3 counterexample: playCard does not fail on an illegal, foreign
card - even in an in-progress state on the right turn it mutates the
state, appending the card to the discard pile and increasing the total
card count, instead of failing with the state unchanged. -/
theorem C3_counterexample :
    stateNoCheck.status = GameStatus.playing ∧
    stateNoCheck.currentTurn = Side.player ∧
    mkCard .queen .diamonds ∉ stateNoCheck.playerHand ∧
    isValidMove (mkCard .queen .diamonds) (mkCard .king .spades)
      stateNoCheck.currentSuit = false ∧
    playCard (mkCard .queen .diamonds) Side.player stateNoCheck ≠
      stateNoCheck ∧
    totalCards (playCard (mkCard .queen .diamonds) Side.player
        stateNoCheck) =
      totalCards stateNoCheck + 1 := by
  refine ⟨rfl, rfl, by decide, by decide, ?_, by decide⟩
  intro h
  have hd := congrArg (fun st => st.discardPile.length) h
  simp [playCard, stateNoCheck] at hd

/-- C3 amended: playCard performs no validation and never fails: for
every state, card and side it unconditionally appends the card to the
discard pile, removes the cards sharing the played id from the mover's
hand and leaves the other hand unchanged, even when the card is
illegal or absent from the hand, the mover does not hold the turn, or
the status is not in-progress; illegal invocations are prevented only
by the UI layer. -/
theorem C3_play_no_validation (card : CardData) (turn : Side)
    (s : GameState) :
    (playCard card turn s).discardPile = s.discardPile ++ [card] ∧
    handOf (playCard card turn s) turn =
      (handOf s turn).filter (fun c => c.id ≠ card.id) ∧
    handOf (playCard card turn s) (otherSide turn) =
      handOf s (otherSide turn) := by
  cases turn <;> refine ⟨rfl, ?_, ?_⟩ <;> simp [playCard, handOf, otherSide]

/-- A concrete state where the player's hand holds exactly one card, a
non-eight that is legal on the top card. -/
def stateLastCard : GameState :=
  { deck := [mkCard .two .hearts], discardPile := [mkCard .king .spades],
    playerHand := [mkCard .ace .spades], aiHand := [mkCard .five .clubs],
    currentSuit := none, currentTurn := .player, status := .playing,
    winner := none, lastAction := "x" }

/-- C4 counterexample: the winning play still performs the turn
update: after the player's legal final non-eight play the state is
concluded with the player as winner, yet currentTurn has moved to the
computer although the turn was the player's and the claim says the
turn update is skipped. -/
theorem C4_counterexample :
    stateLastCard.playerHand = [mkCard .ace .spades] ∧
    stateLastCard.currentTurn = Side.player ∧
    isValidMove (mkCard .ace .spades) (mkCard .king .spades)
      stateLastCard.currentSuit = true ∧
    (playCard (mkCard .ace .spades) Side.player stateLastCard).status =
      GameStatus.game_over ∧
    (playCard (mkCard .ace .spades) Side.player stateLastCard).winner =
      some Side.player ∧
    (playCard (mkCard .ace .spades) Side.player stateLastCard).currentTurn =
      Side.ai := by decide

/-- C4 amended: a play from a one-card hand concludes the game with
the mover as winner, but the turn and declared-suit fields are still
updated as in a non-winning play - the turn passes unless the player
played an eight, and the declared suit is cleared, or set to the
computer's choice for the empty hand when the computer played the
eight; only the status transition is preempted by game-over. -/
theorem C4_winning_play (card : CardData) (turn : Side) (s : GameState)
    (hhand : handOf s turn = [card]) :
    (playCard card turn s).status = GameStatus.game_over ∧
    (playCard card turn s).winner = some turn ∧
    (playCard card turn s).currentTurn =
      (if card.rank = Rank.eight ∧ turn = Side.player then Side.player
       else otherSide turn) ∧
    (playCard card turn s).currentSuit =
      (if card.rank = Rank.eight ∧ turn = Side.ai
       then some (chooseSuitAI []) else none) := by
  cases turn
  case player =>
    have hp : s.playerHand = [card] := by simpa [handOf] using hhand
    have hf : (s.playerHand.filter fun c => c.id ≠ card.id) = [] := by
      rw [hp]
      simp
    simp only [playCard, handOf, hf]
    simp [otherSide]
  case ai =>
    have hp : s.aiHand = [card] := by simpa [handOf] using hhand
    have hf : (s.aiHand.filter fun c => c.id ≠ card.id) = [] := by
      rw [hp]
      simp
    simp only [playCard, handOf, hf]
    simp [otherSide]

/-- Witness for C4 at the one-card state. -/
theorem C4_witness :
    (playCard (mkCard .ace .spades) Side.player stateLastCard).status =
      GameStatus.game_over ∧
    (playCard (mkCard .ace .spades) Side.player stateLastCard).winner =
      some Side.player ∧
    (playCard (mkCard .ace .spades) Side.player stateLastCard).currentTurn =
      (if (mkCard .ace .spades).rank = Rank.eight ∧ Side.player = Side.player
       then Side.player else otherSide Side.player) ∧
    (playCard (mkCard .ace .spades) Side.player stateLastCard).currentSuit =
      (if (mkCard .ace .spades).rank = Rank.eight ∧ Side.player = Side.ai
       then some (chooseSuitAI []) else none) :=
  C4_winning_play (mkCard .ace .spades) Side.player stateLastCard rfl

/-- A concrete in-progress state whose player hand holds an eight and
one more card. -/
def stateMidGame : GameState :=
  { deck := [mkCard .two .hearts], discardPile := [mkCard .king .spades],
    playerHand := [mkCard .eight .clubs, mkCard .four .diamonds],
    aiHand := [mkCard .five .clubs],
    currentSuit := none, currentTurn := .player, status := .playing,
    winner := none, lastAction := "x" }

/-- C7 counterexample: selectSuit performs no status check: invoked in
a playing state, not awaiting a declaration, it does not fail - it
changes the state, setting the declared suit and handing the turn to
the computer. -/
theorem C7_counterexample :
    stateMidGame.status ≠ GameStatus.choosing_suit ∧
    selectSuit Suit.hearts stateMidGame ≠ stateMidGame ∧
    (selectSuit Suit.hearts stateMidGame).currentSuit = some Suit.hearts ∧
    (selectSuit Suit.hearts stateMidGame).currentTurn = Side.ai := by
  decide

/-- C7 amended: a player eight that does not empty the hand moves the
status to awaiting-suit-declaration and the turn stays with the
player; selectSuit, which cannot fail, then unconditionally - in every
status - sets the declared suit, restores the in-progress status and
passes the turn to the computer; its confinement to the
awaiting-declaration status is enforced only by the UI modal. -/
theorem C7_eight_awaits_declaration :
    (∀ (s : GameState) (card : CardData), card.rank = Rank.eight →
      (s.playerHand.filter fun c => c.id ≠ card.id) ≠ [] →
      (playCard card Side.player s).status = GameStatus.choosing_suit ∧
      (playCard card Side.player s).currentTurn = Side.player) ∧
    (∀ (s : GameState) (suit : Suit),
      selectSuit suit s =
        { s with
          currentSuit := some suit,
          status := GameStatus.playing,
          currentTurn := Side.ai,
          lastAction := "你指定花色为 " ++ suitStr suit ++ "。" }) := by
  constructor
  · intro s card heig hne
    obtain ⟨x, hx⟩ := List.exists_mem_of_ne_nil _ hne
    have hx2 := List.mem_filter.mp hx
    simp [playCard, handOf, heig]
    exact ⟨x, hx2.1, by simpa using hx2.2⟩
  · intro s suit
    rfl

/-- Witness for C7: the eight of clubs at the concrete mid-game state,
and a concrete suit selection. -/
theorem C7_witness :
    ((playCard (mkCard .eight .clubs) Side.player stateMidGame).status =
        GameStatus.choosing_suit ∧
      (playCard (mkCard .eight .clubs) Side.player
          stateMidGame).currentTurn = Side.player) ∧
    selectSuit Suit.diamonds stateMidGame =
      { stateMidGame with
        currentSuit := some Suit.diamonds,
        status := GameStatus.playing,
        currentTurn := Side.ai,
        lastAction := "你指定花色为 " ++ suitStr Suit.diamonds ++ "。" } :=
  ⟨C7_eight_awaits_declaration.1 stateMidGame (mkCard .eight .clubs) rfl
      (by decide),
    C7_eight_awaits_declaration.2 stateMidGame Suit.diamonds⟩

end CrazyEights
